import Mathlib

/-!
Shallow embedding of the Campaign-Management discount engine
(`campaigns/services.py` and `campaigns/models.py`).

Monetary `Decimal` values are embedded as `ℚ`; calendar dates as `ℤ`
(absolute day numbers, so `timedelta(days = n)` is integer addition).
Django rows that are created lazily (`get_or_create`) are embedded as
`Option`-valued state: `none` means the row does not exist, `some v`
means the row exists and its counter holds `v`.  Python truthiness of
optional numeric fields (`if not c.total_budget_limit`, `if
c.max_discount_amount`, `if not self.run_days_limit`) is embedded
faithfully: a stored zero is falsy, exactly like an absent value.
-/

namespace CampaignMgmt

abbrev Customer := ℕ

/-- `Campaign.AppliesTo` choices (models.py). -/
inductive AppliesTo where
  | CART
  | DELIVERY
deriving DecidableEq

/-- `Campaign.DiscountType` choices (models.py). -/
inductive DiscountType where
  | PERCENT
  | FLAT
deriving DecidableEq

/-- The `Campaign` model row (models.py); only the fields the engine reads. -/
structure Campaign where
  applies_to : AppliesTo
  discount_type : DiscountType
  discount_value : ℚ
  max_discount_amount : Option ℚ
  allow_all_customers : Bool
  specific_customers : List Customer
  start_date : ℤ
  end_date : ℤ
  run_days_limit : Option ℕ
  total_budget_limit : Option ℚ
  max_txn_per_customer_per_day : ℕ
  is_active : Bool

/-- The `Cart` DTO (services.py). -/
structure Cart where
  customer : Customer
  subtotal : ℚ
  delivery : ℚ

/-- The persisted ledger rows of one campaign: its `CampaignBudget` row
(`none` = not yet created, `some v` = row with `total_discount_given = v`)
and its `CampaignUsageDaily` rows keyed by (customer, usage_date)
(`none` = no row, `some n` = row with `txn_count = n`). -/
structure LedgerState where
  budget : Option ℚ
  daily : Customer × ℤ → Option ℕ

/-- Effective `total_discount_given`: an absent row reads as its default 0. -/
def effBudget (st : LedgerState) : ℚ :=
  st.budget.getD 0

/-- Effective `txn_count` at a key: an absent row reads as its default 0. -/
def effDaily (st : LedgerState) (k : Customer × ℤ) : ℕ :=
  (st.daily k).getD 0

/-- Store a `CampaignUsageDaily` row (used to embed `get_or_create` and
`save` on the daily-usage row). -/
def setDaily (st : LedgerState) (user : Customer) (d : ℤ) (n : ℕ) : LedgerState :=
  { st with daily := fun k => if k = (user, d) then some n else st.daily k }

/-- `Campaign.days_exhausted` (models.py): Python falsiness makes a zero
`run_days_limit` behave like an absent one. -/
def days_exhausted (c : Campaign) (today : ℤ) : Bool :=
  match c.run_days_limit with
  | none => false
  | some L => if L = 0 then false else decide (today > c.start_date + ((L : ℤ) - 1))

/-- `Campaign.is_within_date_window` (models.py). -/
def is_within_date_window (c : Campaign) (today : ℤ) : Bool :=
  decide (c.start_date ≤ today ∧ today ≤ c.end_date)

/-- `Campaign.days_left` (models.py). -/
def days_left (c : Campaign) (today : ℤ) : ℤ :=
  if today > c.end_date then 0
  else
    let natural_left : ℤ := (c.end_date - today) + 1
    match c.run_days_limit with
    | some L =>
      if L ≠ 0 then
        let started_span : ℤ := (today - c.start_date) + 1
        let used : ℤ := max 0 started_span
        let left_by_run : ℤ := max 0 ((L : ℤ) - used)
        min natural_left left_by_run
      else max 0 natural_left
    | none => max 0 natural_left

/-- `_eligible_customer` (services.py). -/
def eligible_customer (c : Campaign) (user : Customer) : Bool :=
  if !c.allow_all_customers then c.specific_customers.contains user else true

/-- `_budget_remaining` (services.py): returns the remaining budget (or
`none` when the campaign is uncapped — including a stored zero limit,
which is falsy in Python) together with the state after the
`get_or_create` of the `CampaignBudget` row. -/
def budget_remaining (c : Campaign) (st : LedgerState) : Option ℚ × LedgerState :=
  match c.total_budget_limit with
  | none => (none, st)
  | some l =>
    if l = 0 then (none, st)
    else
      let given := effBudget st
      (some (l - given), { st with budget := some given })

/-- `_per_day_txn_left` (services.py): `max(0, cap - txn_count)` — embedded
by truncated `ℕ` subtraction — together with the state after the
`get_or_create` of the daily-usage row. -/
def per_day_txn_left (c : Campaign) (user : Customer) (today : ℤ)
    (st : LedgerState) : ℕ × LedgerState :=
  let cnt := effDaily st (user, today)
  (c.max_txn_per_customer_per_day - cnt, setDaily st user today cnt)

/-- `Decimal.quantize(Decimal("0.01"), rounding = ROUND_DOWN)`: truncate
toward zero to 2 decimal places. -/
def quantize_down2 (q : ℚ) : ℚ :=
  if 0 ≤ q then (⌊q * 100⌋ : ℚ) / 100 else (⌈q * 100⌉ : ℚ) / 100

/-- `_compute_raw_discount` (services.py).  The per-redemption cap is
applied only when `max_discount_amount` is truthy (present and nonzero). -/
def compute_raw_discount (c : Campaign) (amount : ℚ) : ℚ :=
  let amount := max 0 amount
  let disc :=
    match c.discount_type with
    | DiscountType.PERCENT => amount * c.discount_value / 100
    | DiscountType.FLAT => c.discount_value
  let disc :=
    match c.max_discount_amount with
    | some m => if m ≠ 0 then min disc m else disc
    | none => disc
  max 0 (quantize_down2 disc)

/-- A preview/redeem result dict.  Absent dict keys are `none`: the
race-rejection dict of `redeem_discount` carries neither
`discount_amount` nor `applies_to`. -/
structure Result where
  applicable : Bool
  reason : Option String
  discount_amount : Option ℚ
  applies_to : Option AppliesTo
deriving DecidableEq

/-- The not-applicable dict returned at the bottom of `preview_discount`. -/
def rejected (c : Campaign) (r : String) : Result :=
  { applicable := false
    reason := some r
    discount_amount := some 0
    applies_to := some c.applies_to }

/-- The applicable dict returned by `preview_discount`. -/
def accepted (c : Campaign) (d : ℚ) : Result :=
  { applicable := true
    reason := none
    discount_amount := some d
    applies_to := some c.applies_to }

/-- The dict returned by the under-lock re-check of `redeem_discount`:
only `applicable` and `reason` keys. -/
def race_rejected : Result :=
  { applicable := false
    reason := some "Race: daily limit reached."
    discount_amount := none
    applies_to := none }

/-- The base the discount is computed against (`preview_discount`, line
picking `cart.subtotal` for CART and `cart.delivery` for DELIVERY). -/
def base_amount (c : Campaign) (cart : Cart) : ℚ :=
  match c.applies_to with
  | AppliesTo.CART => cart.subtotal
  | AppliesTo.DELIVERY => cart.delivery

/-- `preview_discount` (services.py), returning the result dict and the
state after the two possible `get_or_create` calls. -/
def preview_discount (c : Campaign) (cart : Cart) (today : ℤ)
    (st : LedgerState) : Result × LedgerState :=
  if !(c.is_active && is_within_date_window c today && !days_exhausted c today) then
    (rejected c "Inactive or outside schedule.", st)
  else if !eligible_customer c cart.customer then
    (rejected c "Customer not targeted.", st)
  else
    let st1 := (per_day_txn_left c cart.customer today st).2
    if (per_day_txn_left c cart.customer today st).1 = 0 then
      (rejected c "Daily usage limit reached.", st1)
    else
      let base := base_amount c cart
      if base ≤ 0 then
        (rejected c "Nothing to discount.", st1)
      else
        let disc := compute_raw_discount c base
        let st2 := (budget_remaining c st1).2
        match (budget_remaining c st1).1 with
        | some r =>
          if r ≤ 0 then (rejected c "Budget exhausted.", st2)
          else if 0 < min disc r then (accepted c (min disc r), st2)
          else (rejected c "Not applicable.", st2)
        | none =>
          if 0 < disc then (accepted c disc, st2)
          else (rejected c "Not applicable.", st2)

/-- The locked section of `redeem_discount` (services.py): the
`select_for_update().get_or_create` of the daily row, the under-lock
re-check, the `txn_count` increment, and the budget addition (the latter
only when `total_budget_limit` is truthy). -/
def redeem_commit (c : Campaign) (cart : Cart) (today : ℤ) (disc : ℚ)
    (st : LedgerState) : Result × LedgerState :=
  let cnt := effDaily st (cart.customer, today)
  let st1 := setDaily st cart.customer today cnt
  if c.max_txn_per_customer_per_day ≤ cnt then
    (race_rejected, st1)
  else
    let st2 := setDaily st1 cart.customer today (cnt + 1)
    let st3 :=
      match c.total_budget_limit with
      | some l =>
        if l ≠ 0 then { st2 with budget := some (effBudget st2 + disc) } else st2
      | none => st2
    ({ applicable := true
       reason := none
       discount_amount := some disc
       applies_to := some c.applies_to }, st3)

/-- `redeem_discount` (services.py): re-validate with `preview_discount`,
then run the locked section with the previewed discount. -/
def redeem_discount (c : Campaign) (cart : Cart) (today : ℤ)
    (st : LedgerState) : Result × LedgerState :=
  let pr := preview_discount c cart today st
  if pr.1.applicable = false then pr
  else redeem_commit c cart today (pr.1.discount_amount.getD 0) pr.2

/-- A sequential engine call: a preview or a redeem, with its own cart
and date. -/
inductive Call where
  | previewC (cart : Cart) (today : ℤ)
  | redeemC (cart : Cart) (today : ℤ)

/-- State after one sequential call. -/
def applyCall (c : Campaign) (st : LedgerState) : Call → LedgerState
  | Call.previewC cart today => (preview_discount c cart today st).2
  | Call.redeemC cart today => (redeem_discount c cart today st).2

/-- State after a sequence of preview/redeem calls. -/
def runCalls (c : Campaign) (calls : List Call) (st : LedgerState) : LedgerState :=
  calls.foldl (applyCall c) st

/-- A step at the granularity the locks serialize: a preview, a whole
redeem, or just the locked section of some in-flight redeem (with the
discount its own unlocked preview computed) — the last lets interleaved
redeems be replayed as sequences of atomic steps. -/
inductive Op where
  | previewOp (cart : Cart) (today : ℤ)
  | redeemOp (cart : Cart) (today : ℤ)
  | commitOp (cart : Cart) (today : ℤ) (disc : ℚ)

/-- State after one step. -/
def applyOp (c : Campaign) (st : LedgerState) : Op → LedgerState
  | Op.previewOp cart today => (preview_discount c cart today st).2
  | Op.redeemOp cart today => (redeem_discount c cart today st).2
  | Op.commitOp cart today disc => (redeem_commit c cart today disc st).2

/-- State after a sequence of steps. -/
def runOps (c : Campaign) (ops : List Op) (st : LedgerState) : LedgerState :=
  ops.foldl (applyOp c) st

/-- `st'` keeps every counter of `st`: rows that existed keep their
values, and the effective counters (absent rows reading as 0) are
unchanged — the only difference allowed is lazy creation of rows holding
their default readings. -/
def CountersKeep (st st' : LedgerState) : Prop :=
  (∀ v, st.budget = some v → st'.budget = some v) ∧
  (∀ k n, st.daily k = some n → st'.daily k = some n) ∧
  effBudget st' = effBudget st ∧
  (∀ k, effDaily st' k = effDaily st k)

/-- The spec's ordered evaluation (§4.1 of the spec): the first failing
check, in the fixed order (schedule, targeting, daily count, base,
budget, positive discount), with the reason the code attaches to it;
`none` when every check passes.  It reads the ledger purely (effective
counters). -/
def spec_first_reason (c : Campaign) (cart : Cart) (today : ℤ)
    (st : LedgerState) : Option String :=
  if !(c.is_active && is_within_date_window c today && !days_exhausted c today) then
    some "Inactive or outside schedule."
  else if !eligible_customer c cart.customer then
    some "Customer not targeted."
  else if c.max_txn_per_customer_per_day - effDaily st (cart.customer, today) = 0 then
    some "Daily usage limit reached."
  else if base_amount c cart ≤ 0 then
    some "Nothing to discount."
  else
    match c.total_budget_limit with
    | some l =>
      if l = 0 then
        if 0 < compute_raw_discount c (base_amount c cart) then none
        else some "Not applicable."
      else
        if l - effBudget st ≤ 0 then some "Budget exhausted."
        else if 0 < min (compute_raw_discount c (base_amount c cart)) (l - effBudget st) then none
        else some "Not applicable."
    | none =>
      if 0 < compute_raw_discount c (base_amount c cart) then none
      else some "Not applicable."

/-- The discount a fully-passing preview returns: the raw discount,
clamped at the remaining budget when the campaign is budget-capped
(`total_budget_limit` truthy). -/
def final_disc (c : Campaign) (cart : Cart) (st : LedgerState) : ℚ :=
  let disc := compute_raw_discount c (base_amount c cart)
  match c.total_budget_limit with
  | some l => if l = 0 then disc else min disc (l - effBudget st)
  | none => disc

/-- The budget invariant: the effective `total_discount_given` never
exceeds a set `total_budget_limit`. -/
def BudgetInv (c : Campaign) (st : LedgerState) : Prop :=
  ∀ l, c.total_budget_limit = some l → effBudget st ≤ l

/-- The daily-cap invariant: every stored `txn_count` is at most
`max_txn_per_customer_per_day`. -/
def DailyInv (c : Campaign) (st : LedgerState) : Prop :=
  ∀ k n, st.daily k = some n → n ≤ c.max_txn_per_customer_per_day

/-! ### Concrete fixtures used by counterexamples and witnesses -/

/-- An always-applicable 10-percent cart campaign, daily cap 1. -/
def campA : Campaign :=
  { applies_to := AppliesTo.CART
    discount_type := DiscountType.PERCENT
    discount_value := 10
    max_discount_amount := none
    allow_all_customers := true
    specific_customers := []
    start_date := 0
    end_date := 100
    run_days_limit := none
    total_budget_limit := some 100
    max_txn_per_customer_per_day := 1
    is_active := true }

/-- Like `campA` but uncapped. -/
def campU : Campaign :=
  { applies_to := AppliesTo.CART
    discount_type := DiscountType.PERCENT
    discount_value := 10
    max_discount_amount := none
    allow_all_customers := true
    specific_customers := []
    start_date := 0
    end_date := 100
    run_days_limit := none
    total_budget_limit := none
    max_txn_per_customer_per_day := 1
    is_active := true }

/-- Like `campU` but with `total_budget_limit` stored as 0 (set yet falsy). -/
def campB0 : Campaign :=
  { applies_to := AppliesTo.CART
    discount_type := DiscountType.PERCENT
    discount_value := 10
    max_discount_amount := none
    allow_all_customers := true
    specific_customers := []
    start_date := 0
    end_date := 100
    run_days_limit := none
    total_budget_limit := some 0
    max_txn_per_customer_per_day := 1
    is_active := true }

/-- Like `campU` but inactive. -/
def campOff : Campaign :=
  { applies_to := AppliesTo.CART
    discount_type := DiscountType.PERCENT
    discount_value := 10
    max_discount_amount := none
    allow_all_customers := true
    specific_customers := []
    start_date := 0
    end_date := 100
    run_days_limit := none
    total_budget_limit := none
    max_txn_per_customer_per_day := 1
    is_active := false }

/-- PERCENT 50 with `max_discount_amount` stored as 0 (set yet falsy). -/
def campZeroCap : Campaign :=
  { applies_to := AppliesTo.CART
    discount_type := DiscountType.PERCENT
    discount_value := 50
    max_discount_amount := some 0
    allow_all_customers := true
    specific_customers := []
    start_date := 0
    end_date := 100
    run_days_limit := none
    total_budget_limit := none
    max_txn_per_customer_per_day := 1
    is_active := true }

/-- Schedule fixture: window [0, 4], `run_days_limit` stored as 0. -/
def campRun0 : Campaign :=
  { applies_to := AppliesTo.CART
    discount_type := DiscountType.PERCENT
    discount_value := 10
    max_discount_amount := none
    allow_all_customers := true
    specific_customers := []
    start_date := 0
    end_date := 4
    run_days_limit := some 0
    total_budget_limit := none
    max_txn_per_customer_per_day := 1
    is_active := true }

/-- Schedule fixture: window [0, 4], `run_days_limit` 3. -/
def campWin : Campaign :=
  { applies_to := AppliesTo.CART
    discount_type := DiscountType.PERCENT
    discount_value := 10
    max_discount_amount := none
    allow_all_customers := true
    specific_customers := []
    start_date := 0
    end_date := 4
    run_days_limit := some 3
    total_budget_limit := none
    max_txn_per_customer_per_day := 1
    is_active := true }

/-- FLAT 7-off cart campaign, no caps. -/
def campFlat : Campaign :=
  { applies_to := AppliesTo.CART
    discount_type := DiscountType.FLAT
    discount_value := 7
    max_discount_amount := none
    allow_all_customers := true
    specific_customers := []
    start_date := 0
    end_date := 100
    run_days_limit := none
    total_budget_limit := none
    max_txn_per_customer_per_day := 1
    is_active := true }

/-- Cart with subtotal 50. -/
def cart0 : Cart := { customer := 0, subtotal := 50, delivery := 5 }

/-- Cart with subtotal 5 (below `campFlat`'s flat discount of 7). -/
def cartS : Cart := { customer := 0, subtotal := 5, delivery := 0 }

/-- The empty ledger: no budget row, no daily rows. -/
def st0 : LedgerState := { budget := none, daily := fun _ => none }

/-- A ledger whose (customer 0, day 0) daily row already holds 1. -/
def stB : LedgerState :=
  { budget := none, daily := fun k => if k = (0, 0) then some 1 else none }

/-- Modelled from the spec's wording of the remaining-days convenience:
`days_used_so_far` is the number of calendar days from `start_date`
through `today` (the code's `used = max(0, today - start_date + 1)`). -/
def days_used_so_far (c : Campaign) (today : ℤ) : ℤ :=
  max 0 ((today - c.start_date) + 1)

/-- The rounding pipeline exactly as the spec words it: truncate
`B × V / 100` toward zero to 2 decimals, then cap at
`max_discount_amount` when set, then clamp at 0. -/
def claimed_percent_discount (V B : ℚ) (cap : Option ℚ) : ℚ :=
  let t := quantize_down2 (B * V / 100)
  let t2 :=
    match cap with
    | some m => min t m
    | none => t
  max 0 t2

@[simp]
theorem setDaily_budget (st : LedgerState) (u : Customer) (d : ℤ) (n : ℕ) :
    (setDaily st u d n).budget = st.budget := rfl

@[simp]
theorem effBudget_setDaily (st : LedgerState) (u : Customer) (d : ℤ) (n : ℕ) :
    effBudget (setDaily st u d n) = effBudget st := rfl

theorem setDaily_daily (st : LedgerState) (u : Customer) (d : ℤ) (n : ℕ)
    (k : Customer × ℤ) :
    (setDaily st u d n).daily k = if k = (u, d) then some n else st.daily k := rfl

theorem countersKeep_refl (st : LedgerState) : CountersKeep st st :=
  ⟨fun _ h => h, fun _ _ h => h, rfl, fun _ => rfl⟩

theorem countersKeep_trans {s1 s2 s3 : LedgerState}
    (h12 : CountersKeep s1 s2) (h23 : CountersKeep s2 s3) : CountersKeep s1 s3 := by
  obtain ⟨b12, d12, eb12, ed12⟩ := h12
  obtain ⟨b23, d23, eb23, ed23⟩ := h23
  exact ⟨fun v h => b23 v (b12 v h), fun k n h => d23 k n (d12 k n h),
    eb23.trans eb12, fun k => (ed23 k).trans (ed12 k)⟩

/-- Materialising the daily row with its current effective reading keeps
all counters. -/
theorem countersKeep_setDaily_self (st : LedgerState) (u : Customer) (d : ℤ) :
    CountersKeep st (setDaily st u d (effDaily st (u, d))) := by
  refine ⟨fun v h => h, ?_, rfl, ?_⟩
  · intro k n h
    rw [setDaily_daily]
    split
    · rename_i hk
      subst hk
      simp [effDaily, h]
    · exact h
  · intro k
    simp only [effDaily, setDaily_daily]
    split
    · rename_i hk
      subst hk
      rfl
    · rfl

/-- Materialising the budget row with its current effective reading keeps
all counters. -/
theorem countersKeep_budget_mat (st : LedgerState) :
    CountersKeep st { st with budget := some (effBudget st) } := by
  refine ⟨?_, fun k n h => h, ?_, fun k => rfl⟩
  · intro v h
    simp [effBudget, h]
  · simp [effBudget]

theorem budget_remaining_snd_keep (c : Campaign) (st : LedgerState) :
    CountersKeep st (budget_remaining c st).2 := by
  unfold budget_remaining
  match c.total_budget_limit with
  | none => exact countersKeep_refl st
  | some l =>
    by_cases hl : l = 0
    · simp only [hl, if_pos rfl]
      exact countersKeep_refl st
    · simp only [if_neg hl]
      exact countersKeep_budget_mat st

theorem per_day_txn_left_snd_keep (c : Campaign) (u : Customer) (today : ℤ)
    (st : LedgerState) :
    CountersKeep st (per_day_txn_left c u today st).2 :=
  countersKeep_setDaily_self st u today

/-- `preview_discount` keeps every counter: it only lazily creates rows. -/
theorem preview_countersKeep (c : Campaign) (cart : Cart) (today : ℤ)
    (st : LedgerState) :
    CountersKeep st (preview_discount c cart today st).2 := by
  unfold preview_discount
  dsimp only
  split
  · exact countersKeep_refl st
  split
  · exact countersKeep_refl st
  have h1 : CountersKeep st (per_day_txn_left c cart.customer today st).2 :=
    per_day_txn_left_snd_keep c cart.customer today st
  have h2 : CountersKeep st (budget_remaining c (per_day_txn_left c cart.customer today st).2).2 :=
    countersKeep_trans h1
      (budget_remaining_snd_keep c (per_day_txn_left c cart.customer today st).2)
  split
  · exact h1
  split
  · exact h1
  split
  · split
    · exact h2
    split
    · exact h2
    · exact h2
  · split
    · exact h2
    · exact h2

@[simp]
theorem per_day_txn_left_fst (c : Campaign) (u : Customer) (today : ℤ)
    (st : LedgerState) :
    (per_day_txn_left c u today st).1 =
      c.max_txn_per_customer_per_day - effDaily st (u, today) := rfl

@[simp]
theorem per_day_txn_left_snd (c : Campaign) (u : Customer) (today : ℤ)
    (st : LedgerState) :
    (per_day_txn_left c u today st).2 = setDaily st u today (effDaily st (u, today)) := rfl

theorem budget_remaining_fst (c : Campaign) (st : LedgerState) :
    (budget_remaining c st).1 =
      match c.total_budget_limit with
      | none => none
      | some l => if l = 0 then none else some (l - effBudget st) := by
  unfold budget_remaining
  rcases c.total_budget_limit with _ | l
  · rfl
  · by_cases hl : l = 0 <;> simp [hl]

/-- `preview_discount`'s result dict is fully determined by the spec's
ordered first-failing-check evaluation and the budget-clamped discount. -/
theorem preview_fst_eq (c : Campaign) (cart : Cart) (today : ℤ) (st : LedgerState) :
    (preview_discount c cart today st).1 =
      match spec_first_reason c cart today st with
      | some r => rejected c r
      | none => accepted c (final_disc c cart st) := by
  unfold preview_discount spec_first_reason final_disc
  dsimp only
  by_cases hA : (!(c.is_active && is_within_date_window c today && !days_exhausted c today)) = true
  · simp [hA]
  · simp only [Bool.not_eq_true] at hA
    simp only [hA, Bool.false_eq_true, if_false]
    by_cases hB : (!eligible_customer c cart.customer) = true
    · simp [hB]
    · simp only [Bool.not_eq_true] at hB
      simp only [hB, Bool.false_eq_true, if_false]
      by_cases hC : c.max_txn_per_customer_per_day - effDaily st (cart.customer, today) = 0
      · simp [hC]
      · simp only [per_day_txn_left_fst, hC, if_false]
        by_cases hD : base_amount c cart ≤ 0
        · simp [hD]
        · simp only [hD, if_false]
          rw [budget_remaining_fst]
          simp only [per_day_txn_left_snd, effBudget_setDaily]
          rcases hl : c.total_budget_limit with _ | l
          · dsimp only
            by_cases hF : 0 < compute_raw_discount c (base_amount c cart)
            · simp [hF]
            · simp [hF]
          · dsimp only
            by_cases hl0 : l = 0
            · subst hl0
              simp only [if_pos rfl]
              by_cases hF : 0 < compute_raw_discount c (base_amount c cart)
              · simp [hF]
              · simp [hF]
            · simp only [if_neg hl0]
              by_cases hE : l - effBudget st ≤ 0
              · simp [hE]
              · simp only [hE, if_false]
                by_cases hF :
                    0 < min (compute_raw_discount c (base_amount c cart)) (l - effBudget st)
                · simp [hF]
                · simp [hF]

theorem preview_applicable_iff (c : Campaign) (cart : Cart) (today : ℤ)
    (st : LedgerState) :
    (preview_discount c cart today st).1.applicable = true ↔
      spec_first_reason c cart today st = none := by
  rw [preview_fst_eq]
  rcases spec_first_reason c cart today st with _ | r <;>
    simp [rejected, accepted]

theorem preview_reason_eq (c : Campaign) (cart : Cart) (today : ℤ)
    (st : LedgerState) :
    (preview_discount c cart today st).1.reason = spec_first_reason c cart today st := by
  rw [preview_fst_eq]
  rcases spec_first_reason c cart today st with _ | r <;>
    simp [rejected, accepted]

theorem preview_applicable_discount (c : Campaign) (cart : Cart) (today : ℤ)
    (st : LedgerState) (h : (preview_discount c cart today st).1.applicable = true) :
    (preview_discount c cart today st).1.discount_amount = some (final_disc c cart st) := by
  rw [preview_applicable_iff] at h
  rw [preview_fst_eq, h]
  rfl

theorem final_disc_le_remaining (c : Campaign) (cart : Cart) (st : LedgerState)
    (l : ℚ) (hl : c.total_budget_limit = some l) (hl0 : l ≠ 0) :
    final_disc c cart st ≤ l - effBudget st := by
  unfold final_disc
  rw [hl]
  simp [hl0]

theorem budgetInv_of_countersKeep {c : Campaign} {st st' : LedgerState}
    (hk : CountersKeep st st') (h : BudgetInv c st) : BudgetInv c st' := by
  intro l hl
  rw [hk.2.2.1]
  exact h l hl

theorem redeem_commit_budgetInv (c : Campaign) (cart : Cart) (today : ℤ)
    (disc : ℚ) (st : LedgerState)
    (hd : ∀ l, c.total_budget_limit = some l → l ≠ 0 → effBudget st + disc ≤ l)
    (h : BudgetInv c st) :
    BudgetInv c (redeem_commit c cart today disc st).2 := by
  unfold redeem_commit
  dsimp only
  split
  · exact budgetInv_of_countersKeep
      (countersKeep_setDaily_self st cart.customer today) h
  · rcases hl : c.total_budget_limit with _ | l
    · dsimp only
      intro l' hl'
      rw [hl] at hl'
      exact absurd hl' (by simp)
    · dsimp only
      by_cases hl0 : l = 0
      · subst hl0
        rw [if_neg (by simp)]
        intro l' hl'
        rw [hl] at hl'
        simp only [Option.some.injEq] at hl'
        subst hl'
        have := h 0 hl
        simpa [effBudget, setDaily] using this
      · rw [if_pos hl0]
        intro l' hl'
        rw [hl] at hl'
        simp only [Option.some.injEq] at hl'
        subst hl'
        have := hd l hl hl0
        simpa [effBudget, setDaily] using this

theorem redeem_budgetInv (c : Campaign) (cart : Cart) (today : ℤ)
    (st : LedgerState) (h : BudgetInv c st) :
    BudgetInv c (redeem_discount c cart today st).2 := by
  unfold redeem_discount
  dsimp only
  by_cases hap : (preview_discount c cart today st).1.applicable = false
  · simp only [hap, if_pos rfl]
    exact budgetInv_of_countersKeep (preview_countersKeep c cart today st) h
  · have hap' : (preview_discount c cart today st).1.applicable = true := by
      revert hap
      rcases (preview_discount c cart today st).1.applicable with _ | _ <;> simp
    rw [hap', if_neg (by simp)]
    have hk := preview_countersKeep c cart today st
    refine redeem_commit_budgetInv c cart today _ _ ?_
      (budgetInv_of_countersKeep hk h)
    intro l hl hl0
    rw [preview_applicable_discount c cart today st hap']
    have hle := final_disc_le_remaining c cart st l hl hl0
    rw [hk.2.2.1]
    simp only [Option.getD_some]
    linarith [h l hl]

theorem effDaily_le_of_dailyInv {c : Campaign} {st : LedgerState}
    (h : DailyInv c st) (k : Customer × ℤ) :
    effDaily st k ≤ c.max_txn_per_customer_per_day := by
  unfold effDaily
  rcases hk : st.daily k with _ | n
  · simp
  · simpa using h k n hk

theorem dailyInv_setDaily {c : Campaign} {st : LedgerState} {u : Customer}
    {d : ℤ} {n : ℕ} (h : DailyInv c st)
    (hn : n ≤ c.max_txn_per_customer_per_day) :
    DailyInv c (setDaily st u d n) := by
  intro k m hk
  rw [setDaily_daily] at hk
  by_cases he : k = (u, d)
  · rw [if_pos he] at hk
    cases hk
    exact hn
  · rw [if_neg he] at hk
    exact h k m hk

theorem dailyInv_of_daily_eq {c : Campaign} {st st' : LedgerState}
    (hd : st'.daily = st.daily) (h : DailyInv c st) : DailyInv c st' := by
  intro k n hk
  rw [hd] at hk
  exact h k n hk

theorem budget_remaining_snd_daily (c : Campaign) (st : LedgerState) :
    (budget_remaining c st).2.daily = st.daily := by
  unfold budget_remaining
  rcases c.total_budget_limit with _ | l
  · rfl
  · by_cases hl : l = 0 <;> simp [hl]

theorem preview_daily_cases (c : Campaign) (cart : Cart) (today : ℤ)
    (st : LedgerState) :
    (preview_discount c cart today st).2.daily = st.daily ∨
      (preview_discount c cart today st).2.daily =
        (setDaily st cart.customer today (effDaily st (cart.customer, today))).daily := by
  unfold preview_discount
  dsimp only
  split
  · exact Or.inl rfl
  split
  · exact Or.inl rfl
  split
  · exact Or.inr rfl
  split
  · exact Or.inr rfl
  have hb := budget_remaining_snd_daily c (per_day_txn_left c cart.customer today st).2
  split
  · split
    · exact Or.inr hb
    split
    · exact Or.inr hb
    · exact Or.inr hb
  · split
    · exact Or.inr hb
    · exact Or.inr hb

theorem preview_dailyInv (c : Campaign) (cart : Cart) (today : ℤ)
    (st : LedgerState) (h : DailyInv c st) :
    DailyInv c (preview_discount c cart today st).2 := by
  rcases preview_daily_cases c cart today st with hd | hd
  · exact dailyInv_of_daily_eq hd h
  · exact dailyInv_of_daily_eq hd
      (dailyInv_setDaily h (effDaily_le_of_dailyInv h _))

theorem redeem_commit_dailyInv (c : Campaign) (cart : Cart) (today : ℤ)
    (disc : ℚ) (st : LedgerState) (h : DailyInv c st) :
    DailyInv c (redeem_commit c cart today disc st).2 := by
  unfold redeem_commit
  dsimp only
  split
  · exact dailyInv_setDaily h (effDaily_le_of_dailyInv h _)
  · rename_i hlt
    have hcnt : effDaily st (cart.customer, today) + 1 ≤ c.max_txn_per_customer_per_day := by
      omega
    have h2 : DailyInv c
        (setDaily (setDaily st cart.customer today (effDaily st (cart.customer, today)))
          cart.customer today (effDaily st (cart.customer, today) + 1)) :=
      dailyInv_setDaily (dailyInv_setDaily h (effDaily_le_of_dailyInv h _)) hcnt
    rcases c.total_budget_limit with _ | l
    · exact h2
    · dsimp only
      by_cases hl0 : l = 0
      · subst hl0
        simpa using h2
      · simp only [ne_eq, hl0, not_false_eq_true, if_true, ite_true]
        exact dailyInv_of_daily_eq rfl h2

theorem redeem_dailyInv (c : Campaign) (cart : Cart) (today : ℤ)
    (st : LedgerState) (h : DailyInv c st) :
    DailyInv c (redeem_discount c cart today st).2 := by
  unfold redeem_discount
  dsimp only
  split
  · exact preview_dailyInv c cart today st h
  · exact redeem_commit_dailyInv c cart today _ _
      (preview_dailyInv c cart today st h)

theorem setDaily_setDaily (st : LedgerState) (u : Customer) (d : ℤ) (n m : ℕ) :
    (setDaily (setDaily st u d n) u d m).daily = (setDaily st u d m).daily := by
  funext k
  simp only [setDaily_daily]
  split <;> rfl

/-- Locked section when the under-lock re-check fires: race rejection,
the daily row merely materialised, nothing incremented. -/
theorem redeem_commit_race (c : Campaign) (cart : Cart) (today : ℤ)
    (disc : ℚ) (st : LedgerState)
    (hge : c.max_txn_per_customer_per_day ≤ effDaily st (cart.customer, today)) :
    (redeem_commit c cart today disc st).1 = race_rejected ∧
      (redeem_commit c cart today disc st).2 =
        setDaily st cart.customer today (effDaily st (cart.customer, today)) := by
  unfold redeem_commit
  dsimp only
  rw [if_pos hge]
  exact ⟨rfl, rfl⟩

/-- Locked section when the re-check passes: success dict, `txn_count`
incremented by exactly one, and the budget increased by `disc` exactly
when `total_budget_limit` is truthy. -/
theorem redeem_commit_success (c : Campaign) (cart : Cart) (today : ℤ)
    (disc : ℚ) (st : LedgerState)
    (hlt : effDaily st (cart.customer, today) < c.max_txn_per_customer_per_day) :
    (redeem_commit c cart today disc st).1 =
      { applicable := true, reason := none, discount_amount := some disc,
        applies_to := some c.applies_to } ∧
    (redeem_commit c cart today disc st).2.daily =
      (setDaily st cart.customer today (effDaily st (cart.customer, today) + 1)).daily ∧
    effBudget (redeem_commit c cart today disc st).2 =
      (match c.total_budget_limit with
       | some l => if l ≠ 0 then effBudget st + disc else effBudget st
       | none => effBudget st) := by
  unfold redeem_commit
  dsimp only
  rw [if_neg (by omega)]
  refine ⟨rfl, ?_, ?_⟩
  · rcases c.total_budget_limit with _ | l
    · dsimp only
      exact setDaily_setDaily st cart.customer today _ _
    · dsimp only
      by_cases hl0 : l = 0
      · subst hl0
        rw [if_neg (by simp)]
        exact setDaily_setDaily st cart.customer today _ _
      · rw [if_pos hl0]
        exact setDaily_setDaily st cart.customer today _ _
  · rcases c.total_budget_limit with _ | l
    · dsimp only
      simp [effBudget, setDaily]
    · dsimp only
      by_cases hl0 : l = 0
      · subst hl0
        rw [if_neg (by simp), if_neg (by simp)]
        simp [effBudget, setDaily]
      · rw [if_pos hl0, if_pos hl0]
        simp [effBudget, setDaily]

@[simp]
theorem effDaily_setDaily (st : LedgerState) (u : Customer) (d : ℤ) (n : ℕ)
    (k : Customer × ℤ) :
    effDaily (setDaily st u d n) k = if k = (u, d) then n else effDaily st k := by
  unfold effDaily
  rw [setDaily_daily]
  split <;> rfl

theorem effDaily_congr {st st' : LedgerState} (h : st'.daily = st.daily)
    (k : Customer × ℤ) : effDaily st' k = effDaily st k := by
  unfold effDaily
  rw [h]

/-- When every check of the ordered evaluation passes, the customer still
has daily capacity today. -/
theorem spec_none_daily_lt {c : Campaign} {cart : Cart} {today : ℤ}
    {st : LedgerState} (h : spec_first_reason c cart today st = none) :
    effDaily st (cart.customer, today) < c.max_txn_per_customer_per_day := by
  unfold spec_first_reason at h
  split at h
  · exact Option.noConfusion h
  split at h
  · exact Option.noConfusion h
  split at h
  · exact Option.noConfusion h
  rename_i h3
  split at h
  · exact Option.noConfusion h
  omega

/-- A redeem whose re-validation succeeds: success dict carrying the
previewed (budget-clamped) discount, today's `txn_count` for this
customer up by exactly one, every other daily counter unchanged, and the
budget counter up by exactly the discount when the campaign is
budget-capped. -/
theorem redeem_of_preview_applicable {c : Campaign} {cart : Cart} {today : ℤ}
    {st : LedgerState}
    (hap : (preview_discount c cart today st).1.applicable = true) :
    (redeem_discount c cart today st).1 =
      { applicable := true, reason := none,
        discount_amount := some (final_disc c cart st),
        applies_to := some c.applies_to } ∧
    (∀ k, effDaily (redeem_discount c cart today st).2 k =
       if k = (cart.customer, today) then effDaily st k + 1 else effDaily st k) ∧
    effBudget (redeem_discount c cart today st).2 =
      (match c.total_budget_limit with
       | some l => if l ≠ 0 then effBudget st + final_disc c cart st else effBudget st
       | none => effBudget st) := by
  have hk := preview_countersKeep c cart today st
  have hlt : effDaily (preview_discount c cart today st).2 (cart.customer, today) <
      c.max_txn_per_customer_per_day := by
    rw [hk.2.2.2]
    exact spec_none_daily_lt ((preview_applicable_iff c cart today st).mp hap)
  have hdisc := preview_applicable_discount c cart today st hap
  have hcs := redeem_commit_success c cart today (final_disc c cart st)
    (preview_discount c cart today st).2 hlt
  have hred : redeem_discount c cart today st =
      redeem_commit c cart today (final_disc c cart st)
        (preview_discount c cart today st).2 := by
    unfold redeem_discount
    dsimp only
    rw [hap, if_neg (by simp), hdisc]
    rfl
  refine ⟨?_, ?_, ?_⟩
  · rw [hred]
    exact hcs.1
  · intro k
    rw [hred]
    have hd := effDaily_congr hcs.2.1 k
    rw [hd, effDaily_setDaily]
    rw [hk.2.2.2 (cart.customer, today), hk.2.2.2 k]
    split
    · rename_i hke
      rw [hke]
    · rfl
  · rw [hred, hcs.2.2, hk.2.2.1]

/-- A redeem that ends not-applicable keeps every counter. -/
theorem redeem_rejected_countersKeep (c : Campaign) (cart : Cart) (today : ℤ)
    (st : LedgerState)
    (hrej : (redeem_discount c cart today st).1.applicable = false) :
    CountersKeep st (redeem_discount c cart today st).2 := by
  by_cases hap : (preview_discount c cart today st).1.applicable = true
  · exfalso
    have := (redeem_of_preview_applicable hap).1
    rw [this] at hrej
    simp at hrej
  · have hap' : (preview_discount c cart today st).1.applicable = false := by
      revert hap
      rcases (preview_discount c cart today st).1.applicable with _ | _ <;> simp
    unfold redeem_discount
    dsimp only
    rw [hap', if_pos rfl]
    exact preview_countersKeep c cart today st

theorem quantize_down2_le {q : ℚ} (h : 0 ≤ q) : quantize_down2 q ≤ q := by
  unfold quantize_down2
  rw [if_pos h]
  rw [div_le_iff₀ (by norm_num : (0:ℚ) < 100)]
  exact Int.floor_le _

theorem quantize_down2_nonneg {q : ℚ} (h : 0 ≤ q) : 0 ≤ quantize_down2 q := by
  unfold quantize_down2
  rw [if_pos h]
  have : (0 : ℤ) ≤ ⌊q * 100⌋ := Int.floor_nonneg.mpr (by positivity)
  positivity

/-- Truncation to 2 decimals fixes every exact 2-decimal value. -/
theorem quantize_down2_2dp (k : ℤ) : quantize_down2 ((k : ℚ) / 100) = (k : ℚ) / 100 := by
  unfold quantize_down2
  have h100 : ((k : ℚ) / 100) * 100 = (k : ℚ) := by field_simp
  by_cases h : 0 ≤ (k : ℚ) / 100
  · rw [if_pos h, h100, Int.floor_intCast]
  · rw [if_neg h, h100, Int.ceil_intCast]

/-- Truncating after capping at an exact 2-decimal value is the same as
capping after truncating. -/
theorem quantize_down2_min_2dp {x : ℚ} (hx : 0 ≤ x) (k : ℤ) :
    quantize_down2 (min x ((k : ℚ) / 100)) =
      min (quantize_down2 x) ((k : ℚ) / 100) := by
  rcases le_total ((k : ℚ) / 100) x with hmx | hxm
  · rw [min_eq_right hmx, quantize_down2_2dp]
    symm
    rw [min_eq_right]
    by_cases hm0 : 0 ≤ (k : ℚ) / 100
    · unfold quantize_down2
      rw [if_pos hx]
      rw [div_le_div_iff_of_pos_right (by norm_num : (0:ℚ) < 100)]
      rw [Int.cast_le]
      rw [Int.le_floor]
      calc (k : ℚ) = ((k : ℚ) / 100) * 100 := by field_simp
        _ ≤ x * 100 := by
            have := hmx
            nlinarith
    · push_neg at hm0
      exact le_trans (le_of_lt hm0) (quantize_down2_nonneg hx)
  · rw [min_eq_left hxm]
    symm
    rw [min_eq_left]
    exact le_trans (quantize_down2_le hx) hxm

theorem redeem_fst_of_preview_rejected {c : Campaign} {cart : Cart} {today : ℤ}
    {st : LedgerState}
    (h : (preview_discount c cart today st).1.applicable = false) :
    redeem_discount c cart today st = preview_discount c cart today st := by
  unfold redeem_discount
  dsimp only
  rw [h, if_pos rfl]

theorem redeem_applicable_preview_applicable {c : Campaign} {cart : Cart}
    {today : ℤ} {st : LedgerState}
    (h : (redeem_discount c cart today st).1.applicable = true) :
    (preview_discount c cart today st).1.applicable = true := by
  by_contra hn
  have hf : (preview_discount c cart today st).1.applicable = false := by
    revert hn
    rcases (preview_discount c cart today st).1.applicable with _ | _ <;> simp
  rw [redeem_fst_of_preview_rejected hf] at h
  rw [h] at hf
  exact Bool.noConfusion hf

theorem runCalls_budgetInv (c : Campaign) (calls : List Call) :
    ∀ st : LedgerState, BudgetInv c st → BudgetInv c (runCalls c calls st) := by
  induction calls with
  | nil => exact fun st h => h
  | cons op rest ih =>
    intro st h
    have h1 : BudgetInv c (applyCall c st op) := by
      cases op with
      | previewC cart today =>
        exact budgetInv_of_countersKeep (preview_countersKeep c cart today st) h
      | redeemC cart today => exact redeem_budgetInv c cart today st h
    exact ih (applyCall c st op) h1

theorem runOps_dailyInv (c : Campaign) (ops : List Op) :
    ∀ st : LedgerState, DailyInv c st → DailyInv c (runOps c ops st) := by
  induction ops with
  | nil => exact fun st h => h
  | cons op rest ih =>
    intro st h
    have h1 : DailyInv c (applyOp c st op) := by
      cases op with
      | previewOp cart today => exact preview_dailyInv c cart today st h
      | redeemOp cart today => exact redeem_dailyInv c cart today st h
      | commitOp cart today disc => exact redeem_commit_dailyInv c cart today disc st h
    exact ih (applyOp c st op) h1

theorem runPreviews_countersKeep (c : Campaign) (ps : List (Cart × ℤ)) :
    ∀ st : LedgerState,
      CountersKeep st (runCalls c (ps.map fun p => Call.previewC p.1 p.2) st) := by
  induction ps with
  | nil => exact fun st => countersKeep_refl st
  | cons p rest ih =>
    intro st
    exact countersKeep_trans (preview_countersKeep c p.1 p.2 st)
      (ih (preview_discount c p.1 p.2 st).2)

/-! ### Claims -/

/-- C1, counterexample: with `total_budget_limit` stored as 0 — a set
limit — a redeem commits the previewed discount of 5 to the customer yet
adds nothing to `total_discount_given`: the code treats the zero limit
as falsy, so redeem does not add the previewed (budget-clamped) discount
to the ledger as the claim asserts for every set limit. -/
theorem C1_counterexample :
    campB0.total_budget_limit = some 0 ∧
    (preview_discount campB0 cart0 0 st0).1.discount_amount = some 5 ∧
    (redeem_discount campB0 cart0 0 st0).1.applicable = true ∧
    effBudget (redeem_discount campB0 cart0 0 st0).2 = effBudget st0 := by
  refine ⟨rfl, ?_, ?_, ?_⟩ <;>
    norm_num [redeem_discount, redeem_commit, preview_discount, campB0, cart0, st0,
      is_within_date_window, days_exhausted, eligible_customer, effDaily, setDaily,
      base_amount, compute_raw_discount, quantize_down2, budget_remaining, effBudget,
      rejected, accepted]

/-- C1 (amended): for every campaign and every sequence of preview and
redeem calls, a state satisfying `total_discount_given ≤
total_budget_limit` (for a set limit) still satisfies it afterwards; and
an applicable redeem returns exactly the previewed (budget-clamped)
discount and, whenever `total_budget_limit` is set and nonzero, adds
exactly that discount to `total_discount_given` (a zero limit is falsy:
the ledger is left untouched, so the invariant still holds). -/
theorem C1_budget_invariant (c : Campaign) (calls : List Call) (st : LedgerState)
    (hinv : BudgetInv c st) :
    BudgetInv c (runCalls c calls st) ∧
    (∀ cart today, (redeem_discount c cart today st).1.applicable = true →
      (redeem_discount c cart today st).1.discount_amount =
        (preview_discount c cart today st).1.discount_amount ∧
      (∀ l, c.total_budget_limit = some l → l ≠ 0 →
        effBudget (redeem_discount c cart today st).2 =
          effBudget st + (preview_discount c cart today st).1.discount_amount.getD 0)) := by
  refine ⟨runCalls_budgetInv c calls st hinv, ?_⟩
  intro cart today hap
  have hpap := redeem_applicable_preview_applicable hap
  obtain ⟨hfst, heff, hbud⟩ := redeem_of_preview_applicable hpap
  constructor
  · rw [hfst, preview_applicable_discount c cart today st hpap]
  · intro l hl hl0
    rw [hl] at hbud
    dsimp only at hbud
    rw [if_pos hl0] at hbud
    rw [hbud, preview_applicable_discount c cart today st hpap]
    simp

/-- C1, witness: the amended theorem applied to the budget-capped
`campA` on the empty ledger. -/
theorem C1_budget_invariant_witness :
    BudgetInv campA (runCalls campA [Call.redeemC cart0 0] st0) ∧
    effBudget (redeem_discount campA cart0 0 st0).2 =
      effBudget st0 + (preview_discount campA cart0 0 st0).1.discount_amount.getD 0 := by
  have hinv : BudgetInv campA st0 := by
    intro l hl
    have h2 : campA.total_budget_limit = some 100 := rfl
    rw [h2] at hl
    simp only [Option.some.injEq] at hl
    subst hl
    norm_num [effBudget, st0]
  have happ : (redeem_discount campA cart0 0 st0).1.applicable = true := by
    norm_num [redeem_discount, redeem_commit, preview_discount, campA, cart0, st0,
      is_within_date_window, days_exhausted, eligible_customer, effDaily, setDaily,
      base_amount, compute_raw_discount, quantize_down2, budget_remaining, effBudget,
      rejected, accepted]
  refine ⟨(C1_budget_invariant campA [Call.redeemC cart0 0] st0 hinv).1, ?_⟩
  exact ((C1_budget_invariant campA [] st0 hinv).2 cart0 0 happ).2 100 rfl
    (by norm_num)

/-- C2: for a campaign with daily cap N, every stored `txn_count` stays
at most N across any sequence of previews, redeems, and locked commit
sections of in-flight redeems; a redeem finding `txn_count ≥ N` is
rejected and leaves every effective daily counter unchanged; a
successful redeem increments today's `txn_count` for the customer by
exactly 1. -/
theorem C2_daily_cap (c : Campaign) (ops : List Op) (st : LedgerState)
    (hinv : DailyInv c st) :
    DailyInv c (runOps c ops st) ∧
    (∀ cart today,
      c.max_txn_per_customer_per_day ≤ effDaily st (cart.customer, today) →
        (redeem_discount c cart today st).1.applicable = false ∧
        ∀ k, effDaily (redeem_discount c cart today st).2 k = effDaily st k) ∧
    (∀ cart today, (redeem_discount c cart today st).1.applicable = true →
       effDaily (redeem_discount c cart today st).2 (cart.customer, today) =
         effDaily st (cart.customer, today) + 1) := by
  refine ⟨runOps_dailyInv c ops st hinv, ?_, ?_⟩
  · intro cart today hge
    have hpf : (preview_discount c cart today st).1.applicable = false := by
      by_contra hn
      have ht : (preview_discount c cart today st).1.applicable = true := by
        revert hn
        rcases (preview_discount c cart today st).1.applicable with _ | _ <;> simp
      have := spec_none_daily_lt ((preview_applicable_iff c cart today st).mp ht)
      omega
    rw [redeem_fst_of_preview_rejected hpf]
    exact ⟨hpf, fun k => (preview_countersKeep c cart today st).2.2.2 k⟩
  · intro cart today hap
    have hpap := redeem_applicable_preview_applicable hap
    have h := (redeem_of_preview_applicable hpap).2.1 (cart.customer, today)
    rw [h, if_pos rfl]

/-- C2, witness: two redeems (the second as a bare locked section) on
the empty ledger respect `campA`'s daily cap of 1; a redeem against a
ledger already holding `txn_count = 1` is rejected unchanged; a fresh
redeem increments the counter to 1. -/
theorem C2_daily_cap_witness :
    DailyInv campA (runOps campA [Op.redeemOp cart0 0, Op.commitOp cart0 0 5] st0) ∧
    (redeem_discount campA cart0 0 stB).1.applicable = false ∧
    effDaily (redeem_discount campA cart0 0 stB).2 (0, 0) = effDaily stB (0, 0) ∧
    effDaily (redeem_discount campA cart0 0 st0).2 (0, 0) = effDaily st0 (0, 0) + 1 := by
  have h0 : DailyInv campA st0 := by
    intro k n hk
    exact absurd hk (by simp [st0])
  have hB : DailyInv campA stB := by
    intro k n hk
    simp only [stB] at hk
    by_cases he : k = ((0 : Customer), (0 : ℤ))
    · rw [if_pos he] at hk
      cases hk
      exact Nat.le_refl 1
    · rw [if_neg he] at hk
      exact absurd hk (by simp)
  have hge : campA.max_txn_per_customer_per_day ≤ effDaily stB (cart0.customer, 0) := by
    norm_num [campA, effDaily, stB, cart0]
  have happ : (redeem_discount campA cart0 0 st0).1.applicable = true := by
    norm_num [redeem_discount, redeem_commit, preview_discount, campA, cart0, st0,
      is_within_date_window, days_exhausted, eligible_customer, effDaily, setDaily,
      base_amount, compute_raw_discount, quantize_down2, budget_remaining, effBudget,
      rejected, accepted]
  refine ⟨(C2_daily_cap campA _ st0 h0).1, ?_, ?_, ?_⟩
  · exact ((C2_daily_cap campA [] stB hB).2.1 cart0 0 hge).1
  · exact ((C2_daily_cap campA [] stB hB).2.1 cart0 0 hge).2 (0, 0)
  · exact (C2_daily_cap campA [] st0 h0).2.2 cart0 0 happ

/-- C3, counterexample: on a fresh ledger a single preview creates the
(customer 0, day 0) Daily Usage Record — the set of ledger records after
the call differs from the set before it, so preview is not
record-set-preserving as the claim states. -/
theorem C3_counterexample :
    st0.daily (0, 0) = none ∧
    (preview_discount campU cart0 0 st0).2.daily (0, 0) = some 0 := by
  constructor
  · rfl
  · norm_num [preview_discount, campU, cart0, st0, is_within_date_window,
      days_exhausted, eligible_customer, effDaily, setDaily, base_amount,
      compute_raw_discount, quantize_down2, budget_remaining, effBudget,
      rejected, accepted]

/-- C3 (amended): any number of preview calls never changes a counter:
every Budget Ledger or Daily Usage Record that existed keeps its exact
value, and the effective counters (an absent record reading as its
default 0) are unchanged — the only state effect preview can have is
lazily creating records that hold their default readings. -/
theorem C3_preview_no_counter_mutation (c : Campaign) (ps : List (Cart × ℤ))
    (st : LedgerState) :
    CountersKeep st (runCalls c (ps.map fun p => Call.previewC p.1 p.2) st) :=
  runPreviews_countersKeep c ps st

/-- C3, witness: two previews on the empty ledger leave the effective
budget and the (0, 0) effective daily counter unchanged. -/
theorem C3_preview_no_counter_mutation_witness :
    effBudget (runCalls campU
      ([((cart0 : Cart), (0 : ℤ)), (cart0, 0)].map fun p => Call.previewC p.1 p.2) st0) =
      effBudget st0 ∧
    effDaily (runCalls campU
      ([((cart0 : Cart), (0 : ℤ)), (cart0, 0)].map fun p => Call.previewC p.1 p.2) st0)
      (0, 0) = effDaily st0 (0, 0) :=
  ⟨(C3_preview_no_counter_mutation campU [(cart0, 0), (cart0, 0)] st0).2.2.1,
   (C3_preview_no_counter_mutation campU [(cart0, 0), (cart0, 0)] st0).2.2.2 (0, 0)⟩

/-- C4: preview applies its checks in the fixed order — schedule,
targeting, daily count, base, budget, positive discount — the reason it
returns is exactly the spec's first-failing-check evaluation, and the
result is applicable precisely when no check fails. -/
theorem C4_evaluation_order (c : Campaign) (cart : Cart) (today : ℤ)
    (st : LedgerState) :
    (preview_discount c cart today st).1.reason = spec_first_reason c cart today st ∧
    ((preview_discount c cart today st).1.applicable = true ↔
      spec_first_reason c cart today st = none) :=
  ⟨preview_reason_eq c cart today st, preview_applicable_iff c cart today st⟩

/-- C5, counterexample: with `max_discount_amount` stored as 0 — a set
cap — the code skips the cap (Python falsiness) and returns 50 on a 50
percent discount over base 100, while the claimed formula (truncate,
cap at the set `max_discount_amount`, clamp) yields 0. -/
theorem C5_counterexample :
    campZeroCap.max_discount_amount = some 0 ∧
    compute_raw_discount campZeroCap 100 = 50 ∧
    claimed_percent_discount campZeroCap.discount_value 100
      campZeroCap.max_discount_amount = 0 := by
  refine ⟨rfl, ?_, ?_⟩ <;>
    norm_num [compute_raw_discount, claimed_percent_discount, campZeroCap, quantize_down2]

/-- C5 (amended): for a PERCENT campaign with 0 ≤ V ≤ 100 and base
B ≥ 0, whenever `max_discount_amount` is unset or set to a nonzero exact
2-decimal amount, the computed discount equals B × V / 100 truncated
toward zero to 2 decimals, then capped at `max_discount_amount`, then
clamped at 0 (a zero cap is falsy and is skipped); and the result never
exceeds B × V / 100. -/
theorem C5_percent_rounding (c : Campaign) (B : ℚ)
    (hty : c.discount_type = DiscountType.PERCENT)
    (hV0 : 0 ≤ c.discount_value) (hV1 : c.discount_value ≤ 100) (hB : 0 ≤ B)
    (hcap : ∀ m, c.max_discount_amount = some m → m ≠ 0 ∧ ∃ k : ℤ, m = (k : ℚ) / 100) :
    compute_raw_discount c B =
      claimed_percent_discount c.discount_value B c.max_discount_amount ∧
    compute_raw_discount c B ≤ B * c.discount_value / 100 := by
  have hx0 : 0 ≤ B * c.discount_value / 100 := by positivity
  unfold compute_raw_discount claimed_percent_discount
  rw [hty]
  dsimp only
  rw [max_eq_right hB]
  rcases hc : c.max_discount_amount with _ | m
  · dsimp only
    exact ⟨rfl, max_le hx0 (quantize_down2_le hx0)⟩
  · obtain ⟨hm0, k, hk⟩ := hcap m hc
    dsimp only
    rw [if_pos hm0]
    subst hk
    rw [quantize_down2_min_2dp hx0 k]
    refine ⟨rfl, max_le hx0 (le_trans (min_le_left _ _) (quantize_down2_le hx0))⟩

/-- C5, witness: the amended theorem applied to the uncapped 10-percent
campaign at base 7. -/
theorem C5_percent_rounding_witness :
    compute_raw_discount campU 7 =
      claimed_percent_discount campU.discount_value 7 campU.max_discount_amount ∧
    compute_raw_discount campU 7 ≤ 7 * campU.discount_value / 100 :=
  C5_percent_rounding campU 7 rfl (by norm_num [campU]) (by norm_num [campU])
    (by norm_num) (fun m hm => absurd hm (by simp [campU]))

/-- C6: a redeem that ends not-applicable — at the pre-lock
re-validation or at the under-lock re-check — changes no counter:
existing Daily Usage Records and the Budget Ledger keep their exact
values and the effective counters are unchanged; the under-lock
rejection carries the race reason, a string distinct from the ordinary
daily-limit reason. -/
theorem C6_rejected_no_mutation :
    (∀ (c : Campaign) (cart : Cart) (today : ℤ) (st : LedgerState),
      (redeem_discount c cart today st).1.applicable = false →
        CountersKeep st (redeem_discount c cart today st).2) ∧
    (∀ (c : Campaign) (cart : Cart) (today : ℤ) (disc : ℚ) (st : LedgerState),
      (redeem_commit c cart today disc st).1.applicable = false →
        CountersKeep st (redeem_commit c cart today disc st).2 ∧
        (redeem_commit c cart today disc st).1.reason =
          some "Race: daily limit reached.") ∧
    "Race: daily limit reached." ≠ "Daily usage limit reached." := by
  refine ⟨redeem_rejected_countersKeep, ?_, by decide⟩
  intro c cart today disc st hrej
  by_cases hge : c.max_txn_per_customer_per_day ≤ effDaily st (cart.customer, today)
  · obtain ⟨h1, h2⟩ := redeem_commit_race c cart today disc st hge
    refine ⟨?_, by rw [h1]; rfl⟩
    rw [h2]
    exact countersKeep_setDaily_self st cart.customer today
  · exfalso
    have hs := (redeem_commit_success c cart today disc st (by omega)).1
    rw [hs] at hrej
    simp at hrej

/-- C6, witness: an inactive campaign's redeem keeps the budget counter,
and a raced locked section reports the race reason. -/
theorem C6_rejected_no_mutation_witness :
    effBudget (redeem_discount campOff cart0 0 st0).2 = effBudget st0 ∧
    (redeem_commit campU cart0 0 5 stB).1.reason = some "Race: daily limit reached." := by
  have hoff : (redeem_discount campOff cart0 0 st0).1.applicable = false := by
    norm_num [redeem_discount, redeem_commit, preview_discount, campOff, cart0, st0,
      is_within_date_window, days_exhausted, eligible_customer, effDaily, setDaily,
      base_amount, compute_raw_discount, quantize_down2, budget_remaining, effBudget,
      rejected, accepted]
  have hrace : (redeem_commit campU cart0 0 5 stB).1.applicable = false := by
    norm_num [redeem_commit, campU, cart0, stB, effDaily, setDaily, race_rejected]
  exact ⟨(C6_rejected_no_mutation.1 campOff cart0 0 st0 hoff).2.2.1,
         (C6_rejected_no_mutation.2.1 campU cart0 0 5 stB hrace).2⟩

/-- C7, counterexample: `run_days_limit` stored as 0 is a set limit, yet
`days_exhausted` is false even on day 5, although the claimed formula
`today > start_date + (L − 1)` holds there (5 > −1): a zero limit is
falsy and the campaign is never day-exhausted, not exhausted from
`start_date` on. -/
theorem C7_counterexample :
    campRun0.run_days_limit = some 0 ∧
    days_exhausted campRun0 5 = false ∧
    (5 : ℤ) > campRun0.start_date + ((0 : ℤ) - 1) := by
  refine ⟨rfl, ?_, ?_⟩
  · norm_num [days_exhausted, campRun0]
  · norm_num [campRun0]

/-- C7 (amended): with `run_days_limit = L` set and nonzero the campaign
is day-exhausted exactly when `today > start_date + (L − 1)` — usable on
precisely the L consecutive calendar days starting at `start_date`,
regardless of `end_date`; with it unset, or set to the falsy 0, it is
never day-exhausted. -/
theorem C7_day_exhaustion (c : Campaign) (today : ℤ) :
    (∀ L : ℕ, c.run_days_limit = some L → 1 ≤ L →
      (days_exhausted c today = true ↔ today > c.start_date + ((L : ℤ) - 1))) ∧
    ((c.run_days_limit = none ∨ c.run_days_limit = some 0) →
      days_exhausted c today = false) := by
  constructor
  · intro L hL h1
    unfold days_exhausted
    rw [hL]
    dsimp only
    rw [if_neg (by omega)]
    simp [decide_eq_true_eq]
  · intro h
    rcases h with h | h <;> unfold days_exhausted <;> rw [h]
    · simp

/-- C7, witness: the amended theorem at `campWin` (limit 3, start 0,
day 5) and at the limit-free `campU`. -/
theorem C7_day_exhaustion_witness :
    (days_exhausted campWin 5 = true ↔ (5 : ℤ) > campWin.start_date + ((3 : ℤ) - 1)) ∧
    days_exhausted campU 5 = false :=
  ⟨(C7_day_exhaustion campWin 5).1 3 rfl (by norm_num),
   (C7_day_exhaustion campU 5).2 (Or.inl rfl)⟩

/-- C8, counterexample: `run_days_limit` stored as 0 is a set limit, yet
on day 0 of a [0, 4] window `days_left` is 5 — the code's falsy-zero
branch ignores the limit — while the claimed formula
`min(end − today + 1, L − days_used_so_far)` floored at 0 yields 0. -/
theorem C8_counterexample :
    campRun0.run_days_limit = some 0 ∧
    days_left campRun0 0 = 5 ∧
    max 0 (min (campRun0.end_date - 0 + 1) ((0 : ℤ) - days_used_so_far campRun0 0)) = 0 := by
  refine ⟨rfl, ?_, ?_⟩
  · norm_num [days_left, campRun0]
  · norm_num [days_used_so_far, campRun0]

/-- C8 (amended): `days_left` is 0 once `today > end_date`; otherwise it
equals `min(end_date − today + 1, L − days_used_so_far)` floored at 0
when `run_days_limit = L` is set and nonzero, and `end_date − today + 1`
floored at 0 when the limit is unset or set to the falsy 0. -/
theorem C8_days_left (c : Campaign) (today : ℤ) :
    (today > c.end_date → days_left c today = 0) ∧
    (today ≤ c.end_date → ∀ L : ℕ, c.run_days_limit = some L → 1 ≤ L →
      days_left c today =
        max 0 (min (c.end_date - today + 1) ((L : ℤ) - days_used_so_far c today))) ∧
    (today ≤ c.end_date → (c.run_days_limit = none ∨ c.run_days_limit = some 0) →
      days_left c today = max 0 (c.end_date - today + 1)) := by
  refine ⟨?_, ?_, ?_⟩
  · intro h
    unfold days_left
    rw [if_pos h]
  · intro h L hL h1
    unfold days_left days_used_so_far
    rw [if_neg (show ¬today > c.end_date by omega)]
    rw [hL]
    dsimp only
    rw [if_pos (show L ≠ 0 by omega)]
    simp only [min_def, max_def]
    split_ifs <;> omega
  · intro h hr
    unfold days_left
    rw [if_neg (show ¬today > c.end_date by omega)]
    rcases hr with hr | hr <;> rw [hr] <;> dsimp only
    rw [if_neg (show ¬(0 : ℕ) ≠ 0 by simp)]

/-- C8, witness: the amended theorem past the window, inside the window
with limit 3, and inside the window with no limit. -/
theorem C8_days_left_witness :
    days_left campWin 10 = 0 ∧
    days_left campWin 1 =
      max 0 (min (campWin.end_date - 1 + 1) ((3 : ℤ) - days_used_so_far campWin 1)) ∧
    days_left campU 1 = max 0 (campU.end_date - 1 + 1) :=
  ⟨(C8_days_left campWin 10).1 (by norm_num [campWin]),
   (C8_days_left campWin 1).2.1 (by norm_num [campWin]) 3 rfl (by norm_num),
   (C8_days_left campU 1).2.2 (by norm_num [campU]) (Or.inl rfl)⟩

/-- C9: a rejected locked section returns only the applicable flag and
the race reason — its dict has no `discount_amount` and no `applies_to`
key — while every preview result and every non-race redeem result
carries both keys. -/
theorem C9_race_result_shape :
    (∀ (c : Campaign) (cart : Cart) (today : ℤ) (disc : ℚ) (st : LedgerState),
      (redeem_commit c cart today disc st).1.applicable = false →
        (redeem_commit c cart today disc st).1.discount_amount = none ∧
        (redeem_commit c cart today disc st).1.applies_to = none ∧
        (redeem_commit c cart today disc st).1.reason =
          some "Race: daily limit reached.") ∧
    (∀ (c : Campaign) (cart : Cart) (today : ℤ) (st : LedgerState),
      (preview_discount c cart today st).1.discount_amount.isSome = true ∧
      (preview_discount c cart today st).1.applies_to.isSome = true) ∧
    (∀ (c : Campaign) (cart : Cart) (today : ℤ) (st : LedgerState),
      (redeem_discount c cart today st).1 = race_rejected ∨
        ((redeem_discount c cart today st).1.discount_amount.isSome = true ∧
         (redeem_discount c cart today st).1.applies_to.isSome = true)) := by
  refine ⟨?_, ?_, ?_⟩
  · intro c cart today disc st hrej
    by_cases hge : c.max_txn_per_customer_per_day ≤ effDaily st (cart.customer, today)
    · rw [(redeem_commit_race c cart today disc st hge).1]
      exact ⟨rfl, rfl, rfl⟩
    · exfalso
      have hs := (redeem_commit_success c cart today disc st (by omega)).1
      rw [hs] at hrej
      simp at hrej
  · intro c cart today st
    rw [preview_fst_eq]
    rcases spec_first_reason c cart today st with _ | r <;> simp [rejected, accepted]
  · intro c cart today st
    right
    by_cases hap : (preview_discount c cart today st).1.applicable = true
    · rw [(redeem_of_preview_applicable hap).1]
      exact ⟨rfl, rfl⟩
    · have hf : (preview_discount c cart today st).1.applicable = false := by
        revert hap
        rcases (preview_discount c cart today st).1.applicable with _ | _ <;> simp
      rw [redeem_fst_of_preview_rejected hf, preview_fst_eq]
      rcases spec_first_reason c cart today st with _ | r <;> simp [rejected, accepted]

/-- C9, witness: a raced locked section on a ledger already at the daily
cap omits both optional keys. -/
theorem C9_race_result_shape_witness :
    (redeem_commit campU cart0 0 5 stB).1.discount_amount = none ∧
    (redeem_commit campU cart0 0 5 stB).1.applies_to = none := by
  have hrej : (redeem_commit campU cart0 0 5 stB).1.applicable = false := by
    norm_num [redeem_commit, campU, cart0, stB, effDaily, setDaily, race_rejected]
  exact ⟨(C9_race_result_shape.1 campU cart0 0 5 stB hrej).1,
         (C9_race_result_shape.1 campU cart0 0 5 stB hrej).2.1⟩

/-- C10: for a FLAT campaign with exact-2-decimal `discount_value`
strictly above a positive base, no per-redemption cap and no budget cap,
a preview that passes the schedule, targeting and daily checks returns
applicable with `discount_amount = discount_value`, strictly greater
than the base it applies to — the discount is never clamped to the
base. -/
theorem C10_flat_discount_can_exceed_base (c : Campaign) (cart : Cart) (today : ℤ)
    (st : LedgerState)
    (hty : c.discount_type = DiscountType.FLAT)
    (hcap : c.max_discount_amount = none)
    (hbud : c.total_budget_limit = none)
    (hbase : 0 < base_amount c cart)
    (hvb : base_amount c cart < c.discount_value)
    (h2dp : ∃ k : ℤ, c.discount_value = (k : ℚ) / 100)
    (hact : c.is_active = true)
    (hwin : is_within_date_window c today = true)
    (hex : days_exhausted c today = false)
    (hel : eligible_customer c cart.customer = true)
    (hdl : effDaily st (cart.customer, today) < c.max_txn_per_customer_per_day) :
    (preview_discount c cart today st).1.applicable = true ∧
    (preview_discount c cart today st).1.discount_amount = some c.discount_value ∧
    base_amount c cart < c.discount_value := by
  have hpos : 0 < c.discount_value := lt_trans hbase hvb
  have hdv : compute_raw_discount c (base_amount c cart) = c.discount_value := by
    unfold compute_raw_discount
    rw [hty, hcap]
    dsimp only
    obtain ⟨k, hk⟩ := h2dp
    rw [hk, quantize_down2_2dp, ← hk]
    exact max_eq_right (le_of_lt hpos)
  have hspec : spec_first_reason c cart today st = none := by
    unfold spec_first_reason
    rw [hact, hwin, hex, hel, hbud]
    simp only [Bool.not_false, Bool.and_self, Bool.not_true, Bool.true_and,
      Bool.and_true, Bool.false_eq_true, if_false, ite_false]
    rw [if_neg (show ¬(c.max_txn_per_customer_per_day -
        effDaily st (cart.customer, today) = 0) by omega)]
    rw [if_neg (not_le.mpr hbase)]
    rw [hdv, if_pos hpos]
  have happ : (preview_discount c cart today st).1.applicable = true :=
    (preview_applicable_iff c cart today st).mpr hspec
  refine ⟨happ, ?_, hvb⟩
  rw [preview_applicable_discount c cart today st happ]
  unfold final_disc
  rw [hbud]
  dsimp only
  rw [hdv]

/-- C10, witness: `campFlat` (flat 7 off) on a cart with subtotal 5:
applicable, discount 7, strictly above the base. -/
theorem C10_flat_discount_can_exceed_base_witness :
    (preview_discount campFlat cartS 0 st0).1.applicable = true ∧
    (preview_discount campFlat cartS 0 st0).1.discount_amount =
      some campFlat.discount_value ∧
    base_amount campFlat cartS < campFlat.discount_value :=
  C10_flat_discount_can_exceed_base campFlat cartS 0 st0 rfl rfl rfl
    (by norm_num [base_amount, campFlat, cartS])
    (by norm_num [base_amount, campFlat, cartS])
    ⟨700, by norm_num [campFlat]⟩ rfl
    (by norm_num [is_within_date_window, campFlat])
    (by norm_num [days_exhausted, campFlat])
    rfl
    (by norm_num [effDaily, st0, campFlat, cartS])

end CampaignMgmt

